import Mathlib

/-!
Verification of the wav-cli-editor WAV codec and sample-transform engine.

The development shallowly embeds the Python sources:
  * `src/wav_io.py`      — container decode (`read_wav`) / encode (`write_wav`)
  * `src/sample_utils.py` — `get_sample_format_info`
  * `src/wav_processing.py` — functional transform engine
    (`_apply_gain`, `_apply_anti_distortion`, `process_standard_samples`,
    `process_24bit_samples`)
  * `src/wav_processor.py` — class-based engine (`WAVProcessor`)

Modelling conventions:
  * byte buffers are `List ℕ` whose elements are byte values (< 256; Python's
    `bytes` type guarantees this, theorems carry it as a hypothesis where it
    matters);
  * Python `float` parameters (gain, threshold) are modelled as exact
    rationals `ℚ`; `int(x)` is truncation toward zero (`ratTrunc`);
  * fallible operations return `Except WavErr`; every `struct.error` that
    Python raises (unpack of a buffer whose size differs from the format
    size, pack of an out-of-range value) is `WavErr.structError`;
  * file I/O is abstracted to the byte sequence read or written.
-/

/-- Error taxonomy.  Each constructor corresponds to one `raise` site of the
source (all are `ValueError` except `structError` = `struct.error`,
`typeError` = `TypeError`, `zeroDivisionError` = `ZeroDivisionError`). -/
inductive WavErr where
  | badMagic
  | badFormatTag
  | missingFmtChunk
  | unsupportedCompression
  | dataChunkNotFound
  | unsupportedChannelCount
  | unsupportedFormat
  | noData
  | invalidParameter
  | invalidArguments
  | structError
  | typeError
  | zeroDivisionError
  deriving DecidableEq, Repr

/-- Little-endian bytes of a 16-bit value (`struct.pack('<H', x)` payload,
valid for `x < 2^16`). -/
def u16le (x : ℕ) : List ℕ := [x % 256, x / 256]

/-- Little-endian bytes of a 32-bit value (`struct.pack('<I', x)` payload,
valid for `x < 2^32`). -/
def u32le (x : ℕ) : List ℕ :=
  [x % 256, x / 256 % 256, x / 65536 % 256, x / 16777216 % 256]

/-- `struct.unpack('<H', f.read(2))`: consumes two bytes, errors
(`struct.error`) when fewer than two remain. -/
def readU16 : List ℕ → Except WavErr (ℕ × List ℕ)
  | b0 :: b1 :: rest => .ok (b0 + 256 * b1, rest)
  | _ => .error .structError

/-- `struct.unpack('<I', f.read(4))`: consumes four bytes, errors
(`struct.error`) when fewer than four remain. -/
def readU32 : List ℕ → Except WavErr (ℕ × List ℕ)
  | b0 :: b1 :: b2 :: b3 :: rest => .ok (b0 + 256 * b1 + 65536 * b2 + 16777216 * b3, rest)
  | _ => .error .structError

/-- The chunk-scanning loop of `read_wav` (`wav_io.py` lines 56-63): read a
4-byte chunk id; an empty read (EOF) is `DataChunkNotFound`; on `b'data'`
stop; otherwise read the chunk size and skip that many bytes.  The loop is
written with explicit fuel so that it is structurally recursive; every
iteration that does not terminate consumes at least 8 bytes, so a fuel of
`l.length + 1` (supplied by `findData`) can never be exhausted. -/
def findDataAux : ℕ → List ℕ → Except WavErr (List ℕ)
  | _, [] => .error .dataChunkNotFound
  | 0, _ :: _ => .error .dataChunkNotFound
  | fuel + 1, b :: t =>
    if (b :: t).take 4 = [100, 97, 116, 97] then .ok ((b :: t).drop 4)
    else
      match readU32 ((b :: t).drop 4) with
      | .error e => .error e
      | .ok (chunkSize, rest) => findDataAux fuel (rest.drop chunkSize)

/-- Scan the chunk list for the `data` chunk, returning the bytes after its
id. -/
def findData (l : List ℕ) : Except WavErr (List ℕ) :=
  findDataAux (l.length + 1) l

/-- `read_wav` up to (and including) reading the data payload, before the
channel-count / bit-depth validations (`wav_io.py` lines 27-66).  Returns
`(sample_rate, num_channels, bits_per_sample, wav_data)`. -/
def parseWav (l : List ℕ) : Except WavErr (ℕ × ℕ × ℕ × List ℕ) := do
  -- riff = f.read(4); must equal b'RIFF'
  if l.take 4 ≠ [82, 73, 70, 70] then throw .badMagic
  let l := l.drop 4
  -- declared file size: read and discarded
  let (_, l) ← readU32 l
  -- b'WAVE'
  if l.take 4 ≠ [87, 65, 86, 69] then throw .badFormatTag
  let l := l.drop 4
  -- b'fmt '
  if l.take 4 ≠ [102, 109, 116, 32] then throw .missingFmtChunk
  let l := l.drop 4
  let (subchunk1Size, l) ← readU32 l
  let (audioFormat, l) ← readU16 l
  if audioFormat ≠ 1 then throw .unsupportedCompression
  let (numChannels, l) ← readU16 l
  let (sampleRate, l) ← readU32 l
  let (_, l) ← readU32 l      -- byte_rate, discarded
  let (_, l) ← readU16 l      -- block_align, discarded
  let (bitsPerSample, l) ← readU16 l
  -- skip extension bytes of the fmt chunk
  let l := if subchunk1Size > 16 then l.drop (subchunk1Size - 16) else l
  let l ← findData l
  let (dataSize, l) ← readU32 l
  -- wav_data = f.read(data_size): short reads are accepted silently
  let wavData := l.take dataSize
  return (sampleRate, numChannels, bitsPerSample, wavData)

/-- `read_wav` (`wav_io.py` lines 27-78): parse, then validate the channel
count (must be 1 or 2) and the bit depth (must be 8/16/24/32), in that
order. -/
def readWav (l : List ℕ) : Except WavErr (ℕ × ℕ × ℕ × List ℕ) :=
  match parseWav l with
  | .error e => .error e
  | .ok (sampleRate, numChannels, bitsPerSample, wavData) =>
    if numChannels ≠ 1 ∧ numChannels ≠ 2 then .error .unsupportedChannelCount
    else if bitsPerSample ≠ 8 ∧ bitsPerSample ≠ 16 ∧ bitsPerSample ≠ 24 ∧ bitsPerSample ≠ 32 then
      .error .unsupportedFormat
    else .ok (sampleRate, numChannels, bitsPerSample, wavData)

/-- The byte sequence `write_wav` emits (`wav_io.py` lines 108-125), valid
when every packed field fits its width. -/
def wavHeaderBytes (sampleRate numChannels bitsPerSample : ℕ) (data : List ℕ) : List ℕ :=
  [82, 73, 70, 70] ++ u32le (36 + data.length) ++ [87, 65, 86, 69] ++
  [102, 109, 116, 32] ++ u32le 16 ++ u16le 1 ++ u16le numChannels ++
  u32le sampleRate ++ u32le (sampleRate * numChannels * bitsPerSample / 8) ++
  u16le (numChannels * bitsPerSample / 8) ++ u16le bitsPerSample ++
  [100, 97, 116, 97] ++ u32le data.length ++ data

/-- `write_wav` (`wav_io.py` lines 81-128): `NoData` when `wav_data is None`,
otherwise emit the canonical 44-byte header followed by the samples.  Python's
`struct.pack` raises `struct.error` whenever a field does not fit its fixed
width; all such failures are collapsed into the single condition below (the
constant fields 16 and 1 always fit and are omitted). -/
def writeWav (sampleRate numChannels bitsPerSample : ℕ) (wavData : Option (List ℕ)) :
    Except WavErr (List ℕ) :=
  match wavData with
  | none => .error .noData
  | some data =>
    if 36 + data.length < 4294967296 ∧ numChannels < 65536 ∧
        sampleRate < 4294967296 ∧
        sampleRate * numChannels * bitsPerSample / 8 < 4294967296 ∧
        numChannels * bitsPerSample / 8 < 65536 ∧ bitsPerSample < 65536 ∧
        data.length < 4294967296 then
      .ok (wavHeaderBytes sampleRate numChannels bitsPerSample data)
    else .error .structError

/-- Python `int(x)`: truncation toward zero, on the exact-rational model of
`float`. -/
def ratTrunc (q : ℚ) : ℤ := if 0 ≤ q then ⌊q⌋ else -⌊-q⌋

/-- `get_sample_format_info` (`sample_utils.py`): `(sample_format, max_value,
zero_value)`; format char `None` for the 24-bit case. -/
def getSampleFormatInfo (bitsPerSample : ℕ) : Except WavErr (Option Char × ℤ × ℤ) :=
  if bitsPerSample = 8 then .ok (some 'B', 255, 128)
  else if bitsPerSample = 16 then .ok (some 'h', 32767, 0)
  else if bitsPerSample = 24 then .ok (none, 8388607, 0)
  else if bitsPerSample = 32 then .ok (some 'i', 2147483647, 0)
  else .error .unsupportedFormat

/-- `_apply_gain` (`wav_processing.py` lines 9-12):
`max(min_value, min(max_value, int(sample_value * gain)))`. -/
def applyGain (sampleValue : ℤ) (gain : ℚ) (minValue maxValue : ℤ) : ℤ :=
  max minValue (min maxValue (ratTrunc ((sampleValue : ℚ) * gain)))

/-- `_apply_anti_distortion` (`wav_processing.py` lines 15-25).  The division
`excess**3 / (3 * thresh_val**2)` raises `ZeroDivisionError` when
`thresh_val = 0`. -/
def applyAntiDistortion (sampleValue : ℤ) (threshold : ℚ) (maxValue : ℤ) :
    Except WavErr ℤ :=
  let absSample : ℚ := |(sampleValue : ℚ)|
  let threshVal : ℚ := (maxValue : ℚ) * threshold
  if absSample > threshVal then
    let sign : ℚ := if sampleValue > 0 then 1 else -1
    if 3 * threshVal ^ 2 = 0 then .error .zeroDivisionError
    else
      let excess := absSample - threshVal
      let clipped := threshVal + (excess - excess ^ 3 / (3 * threshVal ^ 2))
      let sv := ratTrunc (sign * min (maxValue : ℚ) (max threshVal clipped))
      .ok (max (-maxValue - 1) (min maxValue sv))
  else .ok sampleValue

/-- One sample slot of `struct.unpack` for format chars `'B'` (8-bit,
unsigned), `'h'` (16-bit, signed little-endian) and `'i'` (32-bit, signed
little-endian), on byte values. -/
def decodeStd (bitsPerSample : ℕ) (g : List ℕ) : ℤ :=
  match bitsPerSample, g with
  | 8, [b0] => (b0 : ℤ)
  | 16, [b0, b1] =>
    let v := b0 + 256 * b1
    if v < 32768 then (v : ℤ) else (v : ℤ) - 65536
  | 32, [b0, b1, b2, b3] =>
    let v := b0 + 256 * b1 + 65536 * b2 + 16777216 * b3
    if v < 2147483648 then (v : ℤ) else (v : ℤ) - 4294967296
  | _, _ => 0

/-- One sample slot of `struct.pack` for `'B'`/`'h'`/`'i'`: range-checked
(out-of-range values raise `struct.error`), little-endian two's complement. -/
def encodeStd (bitsPerSample : ℕ) (s : ℤ) : Except WavErr (List ℕ) :=
  match bitsPerSample with
  | 8 => if 0 ≤ s ∧ s ≤ 255 then .ok [s.toNat] else .error .structError
  | 16 =>
    if -32768 ≤ s ∧ s ≤ 32767 then
      .ok [(Int.emod s 65536).toNat % 256, (Int.emod s 65536).toNat / 256]
    else .error .structError
  | 32 =>
    if -2147483648 ≤ s ∧ s ≤ 2147483647 then
      .ok [(Int.emod s 4294967296).toNat % 256,
           (Int.emod s 4294967296).toNat / 256 % 256,
           (Int.emod s 4294967296).toNat / 65536 % 256,
           (Int.emod s 4294967296).toNat / 16777216 % 256]
    else .error .structError
  | _ => .error .structError

/-- The first `n` consecutive `w`-byte sample slots of a buffer (the slots
`struct.unpack`/`struct.pack` and the 24-bit loop operate on). -/
def takeChunks (w : ℕ) (l : List ℕ) : ℕ → List (List ℕ)
  | 0 => []
  | n + 1 => l.take w :: takeChunks w (l.drop w) n

/-- Error-propagating map (the processing loops run to the first raised
exception). -/
def exMap {α β : Type} (f : α → Except WavErr β) : List α → Except WavErr (List β)
  | [] => .ok []
  | a :: as =>
    match f a with
    | .error e => .error e
    | .ok b =>
      match exMap f as with
      | .error e => .error e
      | .ok bs => .ok (b :: bs)

/-- The loop body of `process_standard_samples` (`wav_processing.py` lines
57-65) on one unpacked sample: remove the 8-bit bias, apply exactly one of
the two transforms (gain wins when both are present, matching the
`if gain is not None` test), re-add the 8-bit bias. -/
def stdTransform (bitsPerSample : ℕ) (minValue maxValue zeroValue : ℤ)
    (gain threshold : Option ℚ) (s0 : ℤ) : Except WavErr ℤ :=
  let s := if bitsPerSample = 8 then s0 - zeroValue else s0
  match gain with
  | some gv =>
    .ok (if bitsPerSample = 8 then applyGain s gv minValue maxValue + zeroValue
         else applyGain s gv minValue maxValue)
  | none =>
    match threshold with
    | some t =>
      match applyAntiDistortion s t maxValue with
      | .error e => .error e
      | .ok r => .ok (if bitsPerSample = 8 then r + zeroValue else r)
    | none => .ok (if bitsPerSample = 8 then s + zeroValue else s)

/-- `process_standard_samples` (`wav_processing.py` lines 28-67).
Order of effects follows the source: the exactly-one-of-gain/threshold check,
`get_sample_format_info`, the `TypeError` of `'<' + None * n` for the 24-bit
format char, `struct.unpack` (which requires the buffer length to equal the
format size, i.e. a multiple of the sample width), the transform loop
(with the 8-bit bias removed before and re-added after), and finally
`struct.pack`.  `min_value` is `-max_value - 1` for the zero-bias (signed)
formats, `-zero_value` for 8-bit (line 54). -/
def processStandardSamples (wavData : List ℕ) (bitsPerSample : ℕ)
    (gain threshold : Option ℚ) : Except WavErr (List ℕ) :=
  if (gain.isNone && threshold.isNone) || (gain.isSome && threshold.isSome) then
    .error .invalidArguments
  else
    match getSampleFormatInfo bitsPerSample with
    | .error e => .error e
    | .ok (sampleFormat, maxValue, zeroValue) =>
      match sampleFormat with
      | none => .error .typeError
      | some _ =>
        let sampleSize := bitsPerSample / 8
        let sampleCount := wavData.length / sampleSize
        if wavData.length ≠ sampleCount * sampleSize then .error .structError
        else
          let samples := (takeChunks sampleSize wavData sampleCount).map (decodeStd bitsPerSample)
          let minValue := if zeroValue = 0 then -maxValue - 1 else -zeroValue
          match exMap (stdTransform bitsPerSample minValue maxValue zeroValue gain threshold)
              samples with
          | .error e => .error e
          | .ok transformed =>
            match exMap (encodeStd bitsPerSample) transformed with
            | .error e => .error e
            | .ok packed => .ok packed.flatten

/-- 24-bit decode (`wav_processing.py` lines 89-95): `b1 | (b2 << 8) |
(b3 << 16)` — a bitwise or of disjoint byte fields, hence the sum — then
sign-extension when bit 23 is set (for byte values `v < 2^24`, bit 23 is set
exactly when `8388608 ≤ v`). -/
def decode24 (b0 b1 b2 : ℕ) : ℤ :=
  let v := b0 + 256 * b1 + 65536 * b2
  if 8388608 ≤ v then (v : ℤ) - 16777216 else (v : ℤ)

/-- 24-bit encode (`wav_processing.py` lines 109-113): add `0x1000000` to a
negative value, then emit the three low bytes.  Python's `&`/`>>` on
(possibly still negative) ints are `Int.emod`/`Int.fdiv`. -/
def encode24 (s : ℤ) : List ℕ :=
  let m := if s < 0 then s + 16777216 else s
  [(Int.emod m 256).toNat, (Int.emod (Int.fdiv m 256) 256).toNat,
   (Int.emod (Int.fdiv m 65536) 256).toNat]

/-- The gain branch of the 24-bit loop (`wav_processing.py` lines 97-99):
`int(sample_value * gain)` clamped to `[-max_value, max_value]` with
`max_value = 8388607` (`get_sample_format_info(24)`). -/
def gain24 (s : ℤ) (gain : ℚ) : ℤ :=
  max (-8388607) (min 8388607 (ratTrunc ((s : ℚ) * gain)))

/-- The anti-distortion branch of the 24-bit loop (`wav_processing.py` lines
100-107): cubic soft clip `int(sign * min(max_value, clipped))` — note there
is no lower clamp to `thresh_val` here, and no outer clamp either. -/
def anti24 (s : ℤ) (threshold : ℚ) : Except WavErr ℤ :=
  let absSample : ℚ := |(s : ℚ)|
  let threshVal : ℚ := (8388607 : ℚ) * threshold
  if absSample > threshVal then
    let sign : ℚ := if s > 0 then 1 else -1
    if 3 * threshVal ^ 2 = 0 then .error .zeroDivisionError
    else
      let excess := absSample - threshVal
      let clipped := threshVal + (excess - excess ^ 3 / (3 * threshVal ^ 2))
      .ok (ratTrunc (sign * min (8388607 : ℚ) clipped))
  else .ok s

/-- One iteration of the 24-bit loop body on a decoded sample: gain branch if
`gain is not None`, else anti-distortion branch if `threshold is not None`,
else the sample passes through (it is still re-encoded). -/
def process24Sample (gain threshold : Option ℚ) (s : ℤ) : Except WavErr ℤ :=
  match gain with
  | some gv => .ok (gain24 s gv)
  | none =>
    match threshold with
    | some t => anti24 s t
    | none => .ok s

/-- One iteration of the 24-bit loop on a 3-byte slot: decode, transform,
re-encode.  (Every chunk the loop visits has length exactly 3; the catch-all
branch is unreachable.) -/
def process24Chunk (gain threshold : Option ℚ) (grp : List ℕ) :
    Except WavErr (List ℕ) :=
  match grp with
  | [b0, b1, b2] =>
    match process24Sample gain threshold (decode24 b0 b1 b2) with
    | .error e => .error e
    | .ok r => .ok (encode24 r)
  | _ => .ok grp

/-- `process_24bit_samples` (`wav_processing.py` lines 69-115): the output is
built in a zero-initialised `bytearray(len(wav_data))`; only the first
`3 * (len / 3)` bytes are written, so trailing remainder bytes of the output
stay zero. -/
def process24bitSamples (wavData : List ℕ) (gain threshold : Option ℚ) :
    Except WavErr (List ℕ) :=
  let sampleCount := wavData.length / 3
  match exMap (process24Chunk gain threshold) (takeChunks 3 wavData sampleCount) with
  | .error e => .error e
  | .ok packed => .ok (packed.flatten ++ List.replicate (wavData.length - 3 * sampleCount) 0)

/-- The loop body of `WAVProcessor._process_standard_samples`
(`wav_processor.py` lines 167-185) on one unpacked sample.  It differs from
the functional loop body in the clip lower bound only: `min_value` is
`-max_value` (not `-max_value - 1`) for the zero-bias formats (line 178). -/
def procStdTransform (bitsPerSample : ℕ) (minValue maxValue zeroValue : ℤ)
    (gain : ℚ) (s0 : ℤ) : Except WavErr ℤ :=
  let s := if bitsPerSample = 8 then s0 - zeroValue else s0
  .ok (if bitsPerSample = 8 then applyGain s gain minValue maxValue + zeroValue
       else applyGain s gain minValue maxValue)

/-- `WAVProcessor._process_standard_samples` (`wav_processor.py` lines
148-188): gain only; identical to the functional standard path except for the
clip lower bound (see `procStdTransform`). -/
def procStdGain (wavData : List ℕ) (bitsPerSample : ℕ) (gain : ℚ) :
    Except WavErr (List ℕ) :=
  match getSampleFormatInfo bitsPerSample with
  | .error e => .error e
  | .ok (sampleFormat, maxValue, zeroValue) =>
    match sampleFormat with
    | none => .error .typeError
    | some _ =>
      let sampleSize := bitsPerSample / 8
      let sampleCount := wavData.length / sampleSize
      if wavData.length ≠ sampleCount * sampleSize then .error .structError
      else
        let samples := (takeChunks sampleSize wavData sampleCount).map (decodeStd bitsPerSample)
        let minValue := if zeroValue = 0 then -maxValue else -zeroValue
        match exMap (procStdTransform bitsPerSample minValue maxValue zeroValue gain)
            samples with
        | .error e => .error e
        | .ok transformed =>
          match exMap (encodeStd bitsPerSample) transformed with
          | .error e => .error e
          | .ok packed => .ok packed.flatten

/-- One iteration of the 24-bit gain loop of `WAVProcessor` on a 3-byte
slot. -/
def proc24GainChunk (gain : ℚ) (grp : List ℕ) : List ℕ :=
  match grp with
  | [b0, b1, b2] => encode24 (gain24 (decode24 b0 b1 b2) gain)
  | _ => grp

/-- `WAVProcessor._process_24bit_samples` (`wav_processor.py` lines 190-231):
byte-for-byte the gain branch of the functional 24-bit path; it never
raises. -/
def proc24Gain (wavData : List ℕ) (gain : ℚ) : List ℕ :=
  let sampleCount := wavData.length / 3
  ((takeChunks 3 wavData sampleCount).map (proc24GainChunk gain)).flatten ++
    List.replicate (wavData.length - 3 * sampleCount) 0

/-- `WAVProcessor.amplify` (`wav_processor.py` lines 233-257): reject a
negative gain first, then require loaded data, then dispatch on the bit
depth.  The state is abstracted to the pair (`self.wav_data`,
`self.bits_per_sample`); the result is the new `self.wav_data`. -/
def amplify (wavData : Option (List ℕ)) (bitsPerSample : ℕ) (gain : ℚ) :
    Except WavErr (List ℕ) :=
  if gain < 0 then .error .invalidParameter
  else
    match wavData with
    | none => .error .noData
    | some buf =>
      if bitsPerSample = 24 then .ok (proc24Gain buf gain)
      else procStdGain buf bitsPerSample gain

/-- `WAVProcessor.write_wav` (`wav_processor.py` lines 259-322): `NoData`
when no data is loaded, otherwise the same byte sequence as the functional
`write_wav`. -/
def procWriteWav (wavData : Option (List ℕ)) (sampleRate numChannels bitsPerSample : ℕ) :
    Except WavErr (List ℕ) :=
  writeWav sampleRate numChannels bitsPerSample wavData

/-- The `maxMagnitude` column of the sample-format catalog (the `max_value`
of `get_sample_format_info`), used to state bounds. -/
def formatMax (bitsPerSample : ℕ) : ℤ :=
  if bitsPerSample = 8 then 255
  else if bitsPerSample = 16 then 32767
  else if bitsPerSample = 24 then 8388607
  else if bitsPerSample = 32 then 2147483647
  else 0

/-! ### Helper lemmas -/

theorem ratTrunc_intCast (n : ℤ) : ratTrunc (n : ℚ) = n := by
  unfold ratTrunc
  split_ifs with h
  · exact_mod_cast Int.floor_intCast n
  · rw [← Int.cast_neg, Int.floor_intCast]
    omega

theorem getSampleFormatInfo_error {b : ℕ} {e : WavErr}
    (h : getSampleFormatInfo b = .error e) : e = .unsupportedFormat := by
  unfold getSampleFormatInfo at h
  split_ifs at h <;> simp_all

theorem applyAntiDistortion_error {s : ℤ} {t : ℚ} {m : ℤ} {e : WavErr}
    (h : applyAntiDistortion s t m = .error e) : e = .zeroDivisionError := by
  simp only [applyAntiDistortion] at h
  split at h
  · split at h
    · simp only [Except.error.injEq] at h
      exact h.symm
    · simp at h
  · simp at h

theorem anti24_error {s : ℤ} {t : ℚ} {e : WavErr}
    (h : anti24 s t = .error e) : e = .zeroDivisionError := by
  simp only [anti24] at h
  split at h
  · split at h
    · simp only [Except.error.injEq] at h
      exact h.symm
    · simp at h
  · simp at h

theorem anti24_ok {t : ℚ} (ht : t ≠ 0) (s : ℤ) : ∃ r, anti24 s t = .ok r := by
  have h8 : (8388607 : ℚ) * t ≠ 0 := mul_ne_zero (by norm_num) ht
  have h3 : ¬(3 * ((8388607 : ℚ) * t) ^ 2 = 0) := by
    simp [pow_eq_zero_iff, h8]
  simp only [anti24, h3, if_false]
  split <;> exact ⟨_, rfl⟩

theorem encodeStd_error {b : ℕ} {s : ℤ} {e : WavErr}
    (h : encodeStd b s = .error e) : e = .structError := by
  unfold encodeStd at h
  split at h <;> first
    | (split_ifs at h <;> simp_all)
    | simp_all

theorem process24Sample_error {g t : Option ℚ} {s : ℤ} {e : WavErr}
    (h : process24Sample g t s = .error e) : e = .zeroDivisionError := by
  unfold process24Sample at h
  rcases g with _ | gv
  · rcases t with _ | tv
    · simp_all
    · exact anti24_error h
  · simp_all

theorem exMap_error {α β : Type} {f : α → Except WavErr β} {l : List α} {e : WavErr}
    (h : exMap f l = .error e) : ∃ a ∈ l, f a = .error e := by
  induction l with
  | nil => simp [exMap] at h
  | cons a as ih =>
    unfold exMap at h
    rcases hfa : f a with e' | b
    · rw [hfa] at h
      exact ⟨a, by simp, by simp_all⟩
    · rw [hfa] at h
      rcases hrest : exMap f as with e' | bs
      · rw [hrest] at h
        obtain ⟨x, hx, hfx⟩ := ih (by simp_all)
        exact ⟨x, by simp [hx], hfx⟩
      · rw [hrest] at h
        simp at h

theorem exMap_ok_exists {α β : Type} {f : α → Except WavErr β} {l : List α}
    {P : β → Prop} (h : ∀ a ∈ l, ∃ b, f a = .ok b ∧ P b) :
    ∃ bl, exMap f l = .ok bl ∧ bl.length = l.length ∧ ∀ b ∈ bl, P b := by
  induction l with
  | nil => exact ⟨[], rfl, rfl, by simp⟩
  | cons a as ih =>
    obtain ⟨b, hb, hPb⟩ := h a (by simp)
    obtain ⟨bl, hbl, hlen, hP⟩ := ih (fun x hx => h x (by simp [hx]))
    refine ⟨b :: bl, ?_, by simp [hlen], ?_⟩
    · unfold exMap
      rw [hb, hbl]
    · intro x hx
      rcases List.mem_cons.mp hx with h | h
      · exact h ▸ hPb
      · exact hP x h

theorem exMap_congr_ok {α β : Type} {f : α → Except WavErr β} {l : List α}
    {g : α → β} (h : ∀ a ∈ l, f a = .ok (g a)) :
    exMap f l = .ok (l.map g) := by
  induction l with
  | nil => rfl
  | cons a as ih =>
    unfold exMap
    rw [h a (by simp), ih (fun x hx => h x (by simp [hx]))]
    simp

theorem takeChunks_length (w : ℕ) (l : List ℕ) (n : ℕ) :
    (takeChunks w l n).length = n := by
  induction n generalizing l with
  | zero => rfl
  | succ n ih => simp [takeChunks, ih]

theorem mem_takeChunks_length {w : ℕ} {l : List ℕ} {n : ℕ}
    (h : w * n ≤ l.length) : ∀ g ∈ takeChunks w l n, g.length = w := by
  induction n generalizing l with
  | zero => simp [takeChunks]
  | succ n ih =>
    rw [Nat.mul_succ] at h
    intro g hg
    rcases List.mem_cons.mp hg with hg | hg
    · subst hg
      simp only [List.length_take]
      omega
    · have hlen : w * n ≤ (l.drop w).length := by
        simp only [List.length_drop]
        omega
      exact ih hlen g hg

theorem mem_takeChunks_subset {w : ℕ} {l : List ℕ} {n : ℕ} :
    ∀ g ∈ takeChunks w l n, ∀ b ∈ g, b ∈ l := by
  induction n generalizing l with
  | zero => simp [takeChunks]
  | succ n ih =>
    intro g hg b hb
    rcases List.mem_cons.mp hg with hg | hg
    · exact List.take_subset w l (hg ▸ hb)
    · exact List.drop_subset w l (ih g hg b hb)

theorem flatten_takeChunks {w : ℕ} {l : List ℕ} {n : ℕ} (h : l.length = w * n) :
    (takeChunks w l n).flatten = l := by
  induction n generalizing l with
  | zero =>
    have h0 : l = [] := List.eq_nil_of_length_eq_zero (by simpa using h)
    simp [takeChunks, h0]
  | succ n ih =>
    rw [Nat.mul_succ] at h
    have hlen : (l.drop w).length = w * n := by
      simp only [List.length_drop]
      omega
    simp only [takeChunks, List.flatten_cons]
    rw [ih hlen]
    exact List.take_append_drop w l

theorem flatten_length_of_all {out : List (List ℕ)} {w : ℕ}
    (h : ∀ x ∈ out, x.length = w) : out.flatten.length = w * out.length := by
  induction out with
  | nil => simp
  | cons x xs ih =>
    simp only [List.flatten_cons, List.length_append, List.length_cons]
    rw [h x (by simp), ih (fun y hy => h y (by simp [hy]))]
    ring

theorem length_eq_three_of_chunk {g : List ℕ} (h : g.length = 3) :
    ∃ b0 b1 b2, g = [b0, b1, b2] := by
  rcases g with _ | ⟨b0, _ | ⟨b1, _ | ⟨b2, _ | ⟨b3, t⟩⟩⟩⟩ <;> simp_all

theorem stdTransform_error {b : ℕ} {mn mx zv : ℤ} {g t : Option ℚ} {s0 : ℤ} {e : WavErr}
    (h : stdTransform b mn mx zv g t s0 = .error e) : e = .zeroDivisionError := by
  unfold stdTransform at h
  rcases g with _ | gv
  · rcases t with _ | tv
    · simp_all
    · simp only [] at h
      rcases hAD : applyAntiDistortion (if b = 8 then s0 - zv else s0) tv mx with e' | r
      · rw [hAD] at h
        simp only [Except.error.injEq] at h
        exact h ▸ applyAntiDistortion_error hAD
      · rw [hAD] at h
        simp at h
  · simp_all

theorem processStandardSamples_no_invalidParameter (buf : List ℕ) (bits : ℕ)
    (gain threshold : Option ℚ) :
    processStandardSamples buf bits gain threshold ≠ .error .invalidParameter := by
  intro h
  simp only [processStandardSamples] at h
  split at h
  · simp at h
  · split at h
    · next e heq =>
      simp only [Except.error.injEq] at h
      exact absurd (h ▸ getSampleFormatInfo_error heq) (by simp)
    · split at h
      · simp at h
      · split at h
        · simp at h
        · split at h
          · next e1 heq =>
            simp only [Except.error.injEq] at h
            subst h
            obtain ⟨a, _, hfa⟩ := exMap_error heq
            exact absurd (stdTransform_error hfa) (by simp)
          · split at h
            · next e2 heq2 =>
              simp only [Except.error.injEq] at h
              subst h
              obtain ⟨a, _, hfa⟩ := exMap_error heq2
              exact absurd (encodeStd_error hfa) (by simp)
            · simp at h

theorem process24bitSamples_no_invalidParameter (buf : List ℕ)
    (gain threshold : Option ℚ) :
    process24bitSamples buf gain threshold ≠ .error .invalidParameter := by
  intro h
  simp only [process24bitSamples] at h
  split at h
  · next e1 heq =>
    simp only [Except.error.injEq] at h
    subst h
    obtain ⟨g, _, hfg⟩ := exMap_error heq
    unfold process24Chunk at hfg
    split at hfg
    · split at hfg
      · next e2 heq2 =>
        simp only [Except.error.injEq] at hfg
        exact absurd (hfg ▸ process24Sample_error heq2) (by simp)
      · simp at hfg
    · simp at hfg
  · simp at h

theorem process24_ok_shape {gain threshold : Option ℚ}
    (hok : ∀ s : ℤ, ∃ r, process24Sample gain threshold s = .ok r) (buf : List ℕ) :
    ∃ out, process24bitSamples buf gain threshold = .ok out ∧
      out.length = buf.length ∧
      out.drop (3 * (buf.length / 3)) = List.replicate (buf.length % 3) 0 := by
  have h3le : 3 * (buf.length / 3) ≤ buf.length := by omega
  have hchunk : ∀ g ∈ takeChunks 3 buf (buf.length / 3), g.length = 3 :=
    mem_takeChunks_length h3le
  have hall : ∀ g ∈ takeChunks 3 buf (buf.length / 3),
      ∃ b, process24Chunk gain threshold g = .ok b ∧ b.length = 3 := by
    intro g hg
    obtain ⟨b0, b1, b2, rfl⟩ := length_eq_three_of_chunk (hchunk g hg)
    obtain ⟨r, hr⟩ := hok (decode24 b0 b1 b2)
    exact ⟨encode24 r, by simp [process24Chunk, hr], by simp [encode24]⟩
  obtain ⟨bl, hbl, hlen, hP⟩ := exMap_ok_exists hall
  have hfl : bl.flatten.length = 3 * (buf.length / 3) := by
    rw [flatten_length_of_all hP, hlen, takeChunks_length]
  refine ⟨bl.flatten ++ List.replicate (buf.length - 3 * (buf.length / 3)) 0, ?_, ?_, ?_⟩
  · simp only [process24bitSamples]
    rw [hbl]
  · rw [List.length_append, hfl, List.length_replicate]
    omega
  · rw [← hfl, List.drop_left]
    congr 1
    omega

/-! ### C6: negative gain is rejected before any processing -/

/-- C6: for every gain value `g < 0`, `WAVProcessor.amplify` fails with
`InvalidParameter` (its first check, before the loaded-data check and before
any sample is touched), for every state of the loaded stream and every bit
depth. -/
theorem c6_negative_gain_invalid_parameter (wavData : Option (List ℕ))
    (bitsPerSample : ℕ) (gain : ℚ) (h : gain < 0) :
    amplify wavData bitsPerSample gain = .error .invalidParameter := by
  simp [amplify, h]

/-- Witness for C6 at gain `-1` on a loaded 16-bit stream. -/
theorem c6_negative_gain_invalid_parameter_witness :
    (-1 : ℚ) < 0 ∧ amplify (some [0, 0]) 16 (-1) = .error .invalidParameter :=
  ⟨by norm_num, c6_negative_gain_invalid_parameter (some [0, 0]) 16 (-1) (by norm_num)⟩

/-! ### C3: there is no threshold-range validation -/

/-- C3 counterexample: `AntiDistortion(2.0)` (threshold outside `[0,1]`) does
not fail with `InvalidParameter`; on the 8-bit buffer `[0x00]` it succeeds and
returns the buffer unchanged. -/
theorem c3_counterexample :
    processStandardSamples [0] 8 none (some 2) = .ok [0] := by
  norm_num [processStandardSamples, getSampleFormatInfo, takeChunks, exMap,
    stdTransform, decodeStd, applyAntiDistortion, encodeStd]

/-- C3 (amended): the transform engine performs no threshold-range
validation: for every buffer, bit depth and threshold outside `[0.0, 1.0]`,
neither the standard path nor the 24-bit path ever fails with
`InvalidParameter` (the standard path may succeed or fail with other errors;
no `InvalidParameter` is possible). -/
theorem c3_no_threshold_validation (buf : List ℕ) (bits : ℕ) (t : ℚ)
    (ht : t < 0 ∨ 1 < t) :
    processStandardSamples buf bits none (some t) ≠ .error .invalidParameter ∧
    process24bitSamples buf none (some t) ≠ .error .invalidParameter :=
  ⟨processStandardSamples_no_invalidParameter buf bits none (some t),
   process24bitSamples_no_invalidParameter buf none (some t)⟩

/-- Witness for C3 (amended) at threshold 2 on the 8-bit buffer `[0x00]`. -/
theorem c3_no_threshold_validation_witness :
    ((2 : ℚ) < 0 ∨ (1 : ℚ) < 2) ∧
    (processStandardSamples [0] 8 none (some 2) ≠ .error .invalidParameter ∧
     process24bitSamples [0] none (some 2) ≠ .error .invalidParameter) :=
  ⟨by norm_num, c3_no_threshold_validation [0] 8 2 (by norm_num)⟩

/-! ### C10: the 8-bit gain path can overflow the re-pack -/

/-- C10 is refuted by the code: on the 8-bit buffer `[0xFF]` (stored 255,
signed value 127) with gain 3, the transformed value is
`clamp(381, -128, 255) = 255`, rebias gives `255 + 128 = 383 ∉ [0, 255]`, and
`struct.pack('B', 383)` raises `struct.error` — in both the functional and
the class-based standard path.  The code's own intent comment says the clip
is there "to prevent overflow". -/
theorem c10_8bit_repack_overflow :
    processStandardSamples [255] 8 (some 3) none = .error .structError ∧
    procStdGain [255] 8 3 = .error .structError := by
  constructor
  · norm_num [processStandardSamples, getSampleFormatInfo, takeChunks, exMap,
      stdTransform, decodeStd, applyGain, ratTrunc, encodeStd]
  · norm_num [procStdGain, getSampleFormatInfo, takeChunks, exMap,
      procStdTransform, decodeStd, applyGain, ratTrunc, encodeStd]

/-! ### C8: buffers whose length is not a multiple of the sample width -/

/-- C8 counterexample: on a 3-byte buffer in 16-bit mode with gain 1, the
standard path does **not** succeed: `struct.unpack('<h', ...)` requires the
buffer length to equal the format size, so the call raises `struct.error`. -/
theorem c8_counterexample :
    processStandardSamples [0, 0, 0] 16 (some 1) none = .error .structError := by
  norm_num [processStandardSamples, getSampleFormatInfo]

/-- C8 (amended): for a buffer whose length is not a multiple of the sample
width, the standard path (8/16/32-bit) fails with `struct.error` rather than
truncating, for both transforms; the 24-bit path succeeds — for the gain
transform always, and for anti-distortion whenever `threshold ≠ 0` (at
threshold 0 the code raises `ZeroDivisionError` on any whole sample of
nonzero magnitude, shown here on the bytes `[1, 0, 0, 5]`) — transforming
the `⌊len/3⌋` whole samples and **zero-filling** (rather than truncating)
the trailing remainder bytes, so the output keeps the input length. -/
theorem c8_remainder_behavior :
    (∀ (buf : List ℕ) (bits : ℕ) (g : ℚ), bits = 8 ∨ bits = 16 ∨ bits = 32 →
      buf.length % (bits / 8) ≠ 0 →
      processStandardSamples buf bits (some g) none = .error .structError) ∧
    (∀ (buf : List ℕ) (bits : ℕ) (t : ℚ), bits = 8 ∨ bits = 16 ∨ bits = 32 →
      buf.length % (bits / 8) ≠ 0 →
      processStandardSamples buf bits none (some t) = .error .structError) ∧
    (∀ (buf : List ℕ) (g : ℚ), ∃ out,
      process24bitSamples buf (some g) none = .ok out ∧
      out.length = buf.length ∧
      out.drop (3 * (buf.length / 3)) = List.replicate (buf.length % 3) 0) ∧
    (∀ (buf : List ℕ) (t : ℚ), t ≠ 0 → ∃ out,
      process24bitSamples buf none (some t) = .ok out ∧
      out.length = buf.length ∧
      out.drop (3 * (buf.length / 3)) = List.replicate (buf.length % 3) 0) ∧
    process24bitSamples [1, 0, 0, 5] none (some 0) = .error .zeroDivisionError := by
  refine ⟨?_, ?_, ?_, ?_, ?_⟩
  · intro buf bits g hbits hlen
    rcases hbits with h | h | h <;> subst h
    · exact absurd (Nat.mod_one _) hlen
    · have hne : buf.length ≠ buf.length / 2 * 2 := by omega
      norm_num [processStandardSamples, getSampleFormatInfo, hne]
    · have hne : buf.length ≠ buf.length / 4 * 4 := by omega
      norm_num [processStandardSamples, getSampleFormatInfo, hne]
  · intro buf bits t hbits hlen
    rcases hbits with h | h | h <;> subst h
    · exact absurd (Nat.mod_one _) hlen
    · have hne : buf.length ≠ buf.length / 2 * 2 := by omega
      norm_num [processStandardSamples, getSampleFormatInfo, hne]
    · have hne : buf.length ≠ buf.length / 4 * 4 := by omega
      norm_num [processStandardSamples, getSampleFormatInfo, hne]
  · intro buf g
    exact @process24_ok_shape (some g) none (fun s => ⟨gain24 s g, rfl⟩) buf
  · intro buf t ht
    refine @process24_ok_shape none (some t) (fun s => ?_) buf
    obtain ⟨r, hr⟩ := anti24_ok ht s
    exact ⟨r, hr⟩
  · norm_num [process24bitSamples, takeChunks, exMap, process24Chunk, process24Sample,
      anti24, decode24]

/-- Witness for C8 (amended) on the 5-byte buffer `[1,2,3,4,5]`: 16-bit
standard gain and anti-distortion fail with `struct.error`; the 24-bit paths
succeed with a 5-byte output whose last two bytes are zero; anti-distortion
at threshold 0 on `[1, 0, 0, 5]` raises `ZeroDivisionError`. -/
theorem c8_remainder_behavior_witness :
    ((16 = 8 ∨ 16 = 16 ∨ 16 = 32) ∧ [1, 2, 3, 4, 5].length % (16 / 8) ≠ 0 ∧ (2 : ℚ) ≠ 0) ∧
    processStandardSamples [1, 2, 3, 4, 5] 16 (some 2) none = .error .structError ∧
    processStandardSamples [1, 2, 3, 4, 5] 16 none (some 2) = .error .structError ∧
    (∃ out, process24bitSamples [1, 2, 3, 4, 5] (some 2) none = .ok out ∧
      out.length = [1, 2, 3, 4, 5].length ∧
      out.drop (3 * ([1, 2, 3, 4, 5].length / 3)) =
        List.replicate ([1, 2, 3, 4, 5].length % 3) 0) ∧
    (∃ out, process24bitSamples [1, 2, 3, 4, 5] none (some 2) = .ok out ∧
      out.length = [1, 2, 3, 4, 5].length ∧
      out.drop (3 * ([1, 2, 3, 4, 5].length / 3)) =
        List.replicate ([1, 2, 3, 4, 5].length % 3) 0) ∧
    process24bitSamples [1, 0, 0, 5] none (some 0) = .error .zeroDivisionError :=
  ⟨⟨by norm_num, by norm_num, by norm_num⟩,
   c8_remainder_behavior.1 [1, 2, 3, 4, 5] 16 2 (by norm_num) (by norm_num),
   c8_remainder_behavior.2.1 [1, 2, 3, 4, 5] 16 2 (by norm_num) (by norm_num),
   c8_remainder_behavior.2.2.1 [1, 2, 3, 4, 5] 2,
   c8_remainder_behavior.2.2.2.1 [1, 2, 3, 4, 5] 2 (by norm_num),
   c8_remainder_behavior.2.2.2.2⟩

/-! ### C2: the gain clamp intervals -/

/-- C2 counterexample: the claim's clamp interval `[-maxMagnitude-1,
maxMagnitude]` does not hold for the class-based gain path (a cited source of
the claim): on the 16-bit sample `-32768` (bytes `[0x00, 0x80]`) with gain 1,
`WAVProcessor._process_standard_samples` clamps to `-32767` (bytes
`[0x01, 0x80]`), while the claimed formula keeps `-32768`. -/
theorem c2_counterexample :
    procStdGain [0, 128] 16 1 = .ok [1, 128] ∧
    encodeStd 16 (max (-32768) (min 32767 (ratTrunc ((decodeStd 16 [0, 128] : ℚ) * 1)))) =
      .ok [0, 128] ∧
    ([1, 128] : List ℕ) ≠ [0, 128] := by
  refine ⟨?_, ?_, by simp⟩
  · norm_num [procStdGain, getSampleFormatInfo, takeChunks, exMap, procStdTransform,
      decodeStd, applyGain, ratTrunc, encodeStd,
      show Int.emod (-32767) 65536 = 32769 from by decide]
    decide
  · norm_num [decodeStd, ratTrunc, encodeStd,
      show Int.emod (-32768) 65536 = 32768 from by decide]
    decide

/-- C2 (amended): for every gain `g ≥ 0` the transform returns
`clamp(int_truncate(s·g), lo, hi)` where the interval `[lo, hi]` is:
`[-maxMagnitude-1, maxMagnitude]` in the functional standard path for the
signed formats (16/32-bit), `[-zeroBias, maxMagnitude] = [-128, 255]`
(pre-bias) for 8-bit, and `[-maxMagnitude, maxMagnitude]` in the 24-bit
path — but the class-based `WAVProcessor` standard path clamps the signed
formats to `[-maxMagnitude, maxMagnitude]` instead. -/
theorem c2_gain_clamp_intervals :
    (∀ (b0 b1 : ℕ) (g : ℚ), 0 ≤ g →
      processStandardSamples [b0, b1] 16 (some g) none =
        encodeStd 16 (max (-32768) (min 32767 (ratTrunc ((decodeStd 16 [b0, b1] : ℚ) * g))))) ∧
    (∀ (b0 b1 b2 b3 : ℕ) (g : ℚ), 0 ≤ g →
      processStandardSamples [b0, b1, b2, b3] 32 (some g) none =
        encodeStd 32 (max (-2147483648) (min 2147483647
          (ratTrunc ((decodeStd 32 [b0, b1, b2, b3] : ℚ) * g))))) ∧
    (∀ (b0 : ℕ) (g : ℚ), 0 ≤ g →
      processStandardSamples [b0] 8 (some g) none =
        encodeStd 8 (max (-128) (min 255
          (ratTrunc ((decodeStd 8 [b0] - 128 : ℤ) * g : ℚ))) + 128)) ∧
    (∀ (b0 b1 b2 : ℕ) (g : ℚ), 0 ≤ g →
      process24bitSamples [b0, b1, b2] (some g) none =
        .ok (encode24 (max (-8388607) (min 8388607
          (ratTrunc ((decode24 b0 b1 b2 : ℚ) * g)))))) ∧
    (∀ (b0 b1 : ℕ) (g : ℚ), 0 ≤ g →
      procStdGain [b0, b1] 16 g =
        encodeStd 16 (max (-32767) (min 32767 (ratTrunc ((decodeStd 16 [b0, b1] : ℚ) * g))))) ∧
    (∀ (b0 b1 b2 b3 : ℕ) (g : ℚ), 0 ≤ g →
      procStdGain [b0, b1, b2, b3] 32 g =
        encodeStd 32 (max (-2147483647) (min 2147483647
          (ratTrunc ((decodeStd 32 [b0, b1, b2, b3] : ℚ) * g))))) := by
  refine ⟨?_, ?_, ?_, ?_, ?_, ?_⟩
  · intro b0 b1 g _
    rcases h : encodeStd 16 (max (-32768) (min 32767
        (ratTrunc ((decodeStd 16 [b0, b1] : ℚ) * g)))) with e | bs <;>
      norm_num [processStandardSamples, getSampleFormatInfo, takeChunks, exMap,
        stdTransform, applyGain, h]
  · intro b0 b1 b2 b3 g _
    rcases h : encodeStd 32 (max (-2147483648) (min 2147483647
        (ratTrunc ((decodeStd 32 [b0, b1, b2, b3] : ℚ) * g)))) with e | bs <;>
      norm_num [processStandardSamples, getSampleFormatInfo, takeChunks, exMap,
        stdTransform, applyGain, h]
  · intro b0 g _
    rcases h : encodeStd 8 (max (-128) (min 255
        (ratTrunc ((decodeStd 8 [b0] - 128 : ℤ) * g : ℚ))) + 128) with e | bs <;>
      norm_num [processStandardSamples, getSampleFormatInfo, takeChunks, exMap,
        stdTransform, applyGain, Int.cast_sub, h] <;>
      norm_num [Int.cast_sub] at h <;> simp [h]
  · intro b0 b1 b2 g _
    norm_num [process24bitSamples, takeChunks, exMap, process24Chunk, process24Sample,
      gain24]
  · intro b0 b1 g _
    rcases h : encodeStd 16 (max (-32767) (min 32767
        (ratTrunc ((decodeStd 16 [b0, b1] : ℚ) * g)))) with e | bs <;>
      norm_num [procStdGain, getSampleFormatInfo, takeChunks, exMap,
        procStdTransform, applyGain, h]
  · intro b0 b1 b2 b3 g _
    rcases h : encodeStd 32 (max (-2147483647) (min 2147483647
        (ratTrunc ((decodeStd 32 [b0, b1, b2, b3] : ℚ) * g)))) with e | bs <;>
      norm_num [procStdGain, getSampleFormatInfo, takeChunks, exMap,
        procStdTransform, applyGain, h]

/-- Witness for C2 (amended), instantiating every conjunct at gain 2. -/
theorem c2_gain_clamp_intervals_witness :
    (0 : ℚ) ≤ 2 ∧
    processStandardSamples [10, 0] 16 (some 2) none =
      encodeStd 16 (max (-32768) (min 32767 (ratTrunc ((decodeStd 16 [10, 0] : ℚ) * 2)))) ∧
    processStandardSamples [10, 0, 0, 0] 32 (some 2) none =
      encodeStd 32 (max (-2147483648) (min 2147483647
        (ratTrunc ((decodeStd 32 [10, 0, 0, 0] : ℚ) * 2)))) ∧
    processStandardSamples [130] 8 (some 2) none =
      encodeStd 8 (max (-128) (min 255
        (ratTrunc ((decodeStd 8 [130] - 128 : ℤ) * 2 : ℚ))) + 128) ∧
    process24bitSamples [10, 0, 0] (some 2) none =
      .ok (encode24 (max (-8388607) (min 8388607
        (ratTrunc ((decode24 10 0 0 : ℚ) * 2))))) ∧
    procStdGain [10, 0] 16 2 =
      encodeStd 16 (max (-32767) (min 32767 (ratTrunc ((decodeStd 16 [10, 0] : ℚ) * 2)))) ∧
    procStdGain [10, 0, 0, 0] 32 2 =
      encodeStd 32 (max (-2147483647) (min 2147483647
        (ratTrunc ((decodeStd 32 [10, 0, 0, 0] : ℚ) * 2)))) :=
  ⟨by norm_num,
   c2_gain_clamp_intervals.1 10 0 2 (by norm_num),
   c2_gain_clamp_intervals.2.1 10 0 0 0 2 (by norm_num),
   c2_gain_clamp_intervals.2.2.1 130 2 (by norm_num),
   c2_gain_clamp_intervals.2.2.2.1 10 0 0 2 (by norm_num),
   c2_gain_clamp_intervals.2.2.2.2.1 10 0 2 (by norm_num),
   c2_gain_clamp_intervals.2.2.2.2.2 10 0 0 0 2 (by norm_num)⟩

/-! ### C4: the 24-bit soft clip has no lower clamp to `thresh` -/

/-- C4 counterexample: at the decoded 24-bit sample `8388607` (bytes
`[0xFF, 0xFF, 0x7F]`) and threshold `1/4`, the code computes
`clipped = -5·thresh` and returns `int(sign · min(max, clipped)) = -10485758`,
while the claimed formula `sign · clamp(clipped, thresh, max)` gives
`int(thresh) = 2097151`.  The buffer-level run re-encodes `-10485758` as
`[0x02, 0x00, 0x60]`. -/
theorem c4_counterexample :
    decode24 255 255 127 = 8388607 ∧
    anti24 8388607 (1/4) = .ok (-10485758) ∧
    ratTrunc (1 * min (8388607 : ℚ) (max (8388607 * (1/4))
      ((8388607 * (1/4)) + ((8388607 - 8388607 * (1/4)) -
        (8388607 - 8388607 * (1/4)) ^ 3 / (3 * (8388607 * (1/4)) ^ 2))))) = 2097151 ∧
    (-10485758 : ℤ) ≠ 2097151 ∧
    process24bitSamples [255, 255, 127] none (some (1/4)) = .ok [2, 0, 96] := by
  refine ⟨by norm_num [decode24], ?_, ?_, by norm_num, ?_⟩
  · norm_num [anti24, ratTrunc]
  · norm_num [ratTrunc]
  · norm_num [process24bitSamples, takeChunks, exMap, process24Chunk, process24Sample,
      anti24, ratTrunc, encode24, decode24,
      show Int.emod (6291458 : ℤ) 256 = 2 from by decide,
      show Int.emod (Int.fdiv (6291458 : ℤ) 256) 256 = 0 from by decide,
      show Int.emod (Int.fdiv (6291458 : ℤ) 65536) 256 = 96 from by decide]
    decide

/-- C4 (amended): in the 24-bit anti-distortion path, for every decoded
sample whose magnitude exceeds `thresh = maxMagnitude · threshold` (and
`thresh ≠ 0`, since at `thresh = 0` the code divides by zero), the result is
`int_truncate(sign(sample) · min(clipped, maxMagnitude))` with
`clipped = thresh + (excess − excess³/(3·thresh²))` — the inner clamp has
**no lower bound at `thresh`**, and no further outer clamp is applied. -/
theorem c4_soft_clip_no_lower_clamp (b0 b1 b2 : ℕ) (t : ℚ)
    (ht0 : (8388607 : ℚ) * t ≠ 0)
    (hmag : |(decode24 b0 b1 b2 : ℚ)| > 8388607 * t) :
    process24bitSamples [b0, b1, b2] none (some t) =
      .ok (encode24 (ratTrunc ((if decode24 b0 b1 b2 > 0 then (1 : ℚ) else -1) *
        min (8388607 : ℚ)
          (8388607 * t + ((|(decode24 b0 b1 b2 : ℚ)| - 8388607 * t) -
            (|(decode24 b0 b1 b2 : ℚ)| - 8388607 * t) ^ 3 / (3 * (8388607 * t) ^ 2)))))) := by
  have h3 : ¬(3 * ((8388607 : ℚ) * t) ^ 2 = 0) := by
    simp [pow_eq_zero_iff, ht0]
  norm_num [process24bitSamples, takeChunks, exMap, process24Chunk, process24Sample,
    anti24, hmag, h3]

/-- Witness for C4 (amended) at bytes `[0xFF, 0xFF, 0x7F]`, threshold 1/2. -/
theorem c4_soft_clip_no_lower_clamp_witness :
    ((8388607 : ℚ) * (1/2) ≠ 0 ∧ |(decode24 255 255 127 : ℚ)| > 8388607 * (1/2)) ∧
    process24bitSamples [255, 255, 127] none (some (1/2)) =
      .ok (encode24 (ratTrunc ((if decode24 255 255 127 > 0 then (1 : ℚ) else -1) *
        min (8388607 : ℚ)
          (8388607 * (1/2) + ((|(decode24 255 255 127 : ℚ)| - 8388607 * (1/2)) -
            (|(decode24 255 255 127 : ℚ)| - 8388607 * (1/2)) ^ 3 /
              (3 * (8388607 * (1/2)) ^ 2)))))) :=
  ⟨⟨by norm_num, by norm_num [decode24]⟩,
   c4_soft_clip_no_lower_clamp 255 255 127 (1/2) (by norm_num) (by norm_num [decode24])⟩

/-! ### Container parsing lemmas -/

theorem findData_immediate (rest : List ℕ) :
    findData (100 :: 97 :: 116 :: 97 :: rest) = .ok rest := by
  have h : (100 :: 97 :: 116 :: 97 :: rest).length + 1 = rest.length + 4 + 1 := by
    simp
  rw [findData, h]
  simp [findDataAux]

theorem parseWav_wavHeaderBytes (r c b : ℕ) (d : List ℕ)
    (hr : r < 4294967296) (hc : c < 65536) (hb : b < 65536)
    (hd : d.length < 4294967296) :
    parseWav (wavHeaderBytes r c b d) = .ok (r, c, b, d) := by
  simp only [wavHeaderBytes, u32le, u16le, List.cons_append, List.nil_append]
  simp only [parseWav, List.take_succ_cons, List.take_zero, List.drop_succ_cons,
    List.drop_zero, readU32, readU16, findData_immediate, bind, Except.bind, pure,
    Except.pure]
  norm_num
  rw [findData_immediate]
  simp only [Except.ok.injEq, Prod.mk.injEq]
  refine ⟨by omega, by omega, by omega, ?_⟩
  rw [show d.length % 256 + 256 * (d.length / 256 % 256) + 65536 * (d.length / 65536 % 256) +
      16777216 * (d.length / 16777216 % 256) = d.length from by omega, List.take_length]

/-! ### C1: decode ∘ encode round trip -/

/-- C1: for every stream with a supported channel count and bit depth, a
`uint32` sample rate and a sample-width-aligned buffer, decoding the bytes
produced by encode yields the original stream (same rate, channels, depth and
sample bytes). -/
theorem c1_encode_decode_roundtrip (r c b : ℕ) (d : List ℕ)
    (hc : c = 1 ∨ c = 2) (hb : b = 8 ∨ b = 16 ∨ b = 24 ∨ b = 32)
    (hr : r < 4294967296) (hmul : d.length % (b / 8) = 0)
    (bs : List ℕ) (henc : writeWav r c b (some d) = .ok bs) :
    readWav bs = .ok (r, c, b, d) := by
  simp only [writeWav] at henc
  split at henc
  · next hcond =>
    obtain ⟨h1, h2, h3, h4, h5, h6, h7⟩ := hcond
    simp only [Except.ok.injEq] at henc
    subst henc
    unfold readWav
    rw [parseWav_wavHeaderBytes r c b d hr h2 h6 h7]
    rcases hc with h | h <;> rcases hb with h' | h' | h' | h' <;> subst h <;> subst h' <;>
      norm_num
  · simp at henc

/-- Witness for C1 on a 16-bit mono stream with two samples. -/
theorem c1_encode_decode_roundtrip_witness :
    ((1 = 1 ∨ 1 = 2) ∧ (16 = 8 ∨ 16 = 16 ∨ 16 = 24 ∨ 16 = 32) ∧
      8000 < 4294967296 ∧ ([0, 0, 255, 127] : List ℕ).length % (16 / 8) = 0 ∧
      writeWav 8000 1 16 (some [0, 0, 255, 127]) =
        .ok (wavHeaderBytes 8000 1 16 [0, 0, 255, 127])) ∧
    readWav (wavHeaderBytes 8000 1 16 [0, 0, 255, 127]) =
      .ok (8000, 1, 16, [0, 0, 255, 127]) :=
  ⟨⟨by norm_num, by norm_num, by norm_num, by norm_num, by norm_num [writeWav]⟩,
   c1_encode_decode_roundtrip 8000 1 16 [0, 0, 255, 127] (by norm_num) (by norm_num)
     (by norm_num) (by norm_num) (wavHeaderBytes 8000 1 16 [0, 0, 255, 127])
     (by norm_num [writeWav])⟩

/-! ### C7: decode validation of channel count and bit depth -/

/-- C7 counterexample: on a well-formed container whose header declares 3
channels **and** 12 bits per sample, decode fails with
`UnsupportedChannelCount`, not with `UnsupportedFormat` — the channel check
runs first, so the claim's "fails with `UnsupportedFormat` whenever the
parsed bitsPerSample is not one of 8/16/24/32" does not hold here. -/
theorem c7_counterexample :
    readWav (wavHeaderBytes 8000 3 12 []) = .error .unsupportedChannelCount ∧
    WavErr.unsupportedChannelCount ≠ WavErr.unsupportedFormat := by
  constructor
  · unfold readWav
    rw [parseWav_wavHeaderBytes 8000 3 12 [] (by norm_num) (by norm_num) (by norm_num)
      (by norm_num)]
    norm_num
  · simp

/-- C7 (amended): for every input that parses up to the data payload, decode
fails with `UnsupportedChannelCount` whenever the parsed channel count is not
1 or 2, and fails with `UnsupportedFormat` whenever the channel count is
valid and the parsed bit depth is not 8/16/24/32 (the channel validation runs
first); in either case the container is rejected, never returned. -/
theorem c7_decode_validation (l : List ℕ) (r c b : ℕ) (d : List ℕ)
    (hp : parseWav l = .ok (r, c, b, d)) :
    ((c ≠ 1 ∧ c ≠ 2) → readWav l = .error .unsupportedChannelCount) ∧
    ((c = 1 ∨ c = 2) → b ≠ 8 ∧ b ≠ 16 ∧ b ≠ 24 ∧ b ≠ 32 →
      readWav l = .error .unsupportedFormat) := by
  constructor
  · intro h
    unfold readWav
    rw [hp]
    simp [h]
  · intro h1 h2
    unfold readWav
    rw [hp]
    have hno : ¬(c ≠ 1 ∧ c ≠ 2) := by
      rcases h1 with h | h <;> simp [h]
    simp [hno, h2]

/-- Witness for C7 (amended) on two concrete containers: channels 3 / depth
12 is rejected as `UnsupportedChannelCount`; channels 1 / depth 12 as
`UnsupportedFormat`. -/
theorem c7_decode_validation_witness :
    (parseWav (wavHeaderBytes 8000 3 12 []) = .ok (8000, 3, 12, []) ∧
      ((3 : ℕ) ≠ 1 ∧ (3 : ℕ) ≠ 2) ∧
      parseWav (wavHeaderBytes 8000 1 12 []) = .ok (8000, 1, 12, []) ∧
      ((1 : ℕ) = 1 ∨ (1 : ℕ) = 2) ∧
      ((12 : ℕ) ≠ 8 ∧ (12 : ℕ) ≠ 16 ∧ (12 : ℕ) ≠ 24 ∧ (12 : ℕ) ≠ 32)) ∧
    readWav (wavHeaderBytes 8000 3 12 []) = .error .unsupportedChannelCount ∧
    readWav (wavHeaderBytes 8000 1 12 []) = .error .unsupportedFormat :=
  ⟨⟨parseWav_wavHeaderBytes 8000 3 12 [] (by norm_num) (by norm_num) (by norm_num)
      (by norm_num),
    by norm_num,
    parseWav_wavHeaderBytes 8000 1 12 [] (by norm_num) (by norm_num) (by norm_num)
      (by norm_num),
    by norm_num, by norm_num⟩,
   (c7_decode_validation (wavHeaderBytes 8000 3 12 []) 8000 3 12 []
     (parseWav_wavHeaderBytes 8000 3 12 [] (by norm_num) (by norm_num) (by norm_num)
       (by norm_num))).1 (by norm_num),
   (c7_decode_validation (wavHeaderBytes 8000 1 12 []) 8000 1 12 []
     (parseWav_wavHeaderBytes 8000 1 12 [] (by norm_num) (by norm_num) (by norm_num)
       (by norm_num))).2 (by norm_num) (by norm_num)⟩

/-! ### C9: encode and the NoData condition -/

/-- C9 counterexample: a present-but-empty buffer does **not** always encode
successfully: with `sampleRate = 2^31`, 2 channels and 32 bits, the derived
`byte_rate = 2^34` does not fit `struct.pack('<I', ...)`, so `write_wav`
raises `struct.error` even though the samples buffer is present (and
empty). -/
theorem c9_counterexample :
    writeWav 2147483648 2 32 (some []) = .error .structError := by
  norm_num [writeWav]

/-- C9 (amended): encode fails with `NoData` exactly when the samples buffer
is `None` (never on a present-but-empty buffer); for a present-but-empty
buffer it succeeds with the 44-byte header carrying `dataSize = 0` provided
every derived header field fits its fixed width. -/
theorem c9_encode_nodata_and_empty :
    (∀ r c b : ℕ, writeWav r c b none = .error .noData) ∧
    (∀ (r c b : ℕ) (d : List ℕ), writeWav r c b (some d) ≠ .error .noData) ∧
    (∀ r c b : ℕ, r < 4294967296 → c < 65536 → b < 65536 →
      r * c * b / 8 < 4294967296 → c * b / 8 < 65536 →
      ∃ bs, writeWav r c b (some []) = .ok bs ∧ bs.length = 44 ∧
        bs.drop 40 = [0, 0, 0, 0]) := by
  refine ⟨fun r c b => rfl, ?_, ?_⟩
  · intro r c b d h
    simp only [writeWav] at h
    split at h <;> simp at h
  · intro r c b h1 h2 h3 h4 h5
    refine ⟨wavHeaderBytes r c b [], ?_, ?_, ?_⟩
    · simp [writeWav, h1, h2, h3, h4, h5]
    · simp [wavHeaderBytes, u32le, u16le]
    · norm_num [wavHeaderBytes, u32le, u16le]

/-- Witness for C9 (amended) at `(8000, 1, 16)`. -/
theorem c9_encode_nodata_and_empty_witness :
    (8000 < 4294967296 ∧ 1 < 65536 ∧ 16 < 65536 ∧
      8000 * 1 * 16 / 8 < 4294967296 ∧ 1 * 16 / 8 < 65536) ∧
    writeWav 8000 1 16 none = .error .noData ∧
    writeWav 8000 1 16 (some [7]) ≠ .error .noData ∧
    (∃ bs, writeWav 8000 1 16 (some []) = .ok bs ∧ bs.length = 44 ∧
      bs.drop 40 = [0, 0, 0, 0]) :=
  ⟨⟨by norm_num, by norm_num, by norm_num, by norm_num, by norm_num⟩,
   c9_encode_nodata_and_empty.1 8000 1 16,
   c9_encode_nodata_and_empty.2.1 8000 1 16 [7],
   c9_encode_nodata_and_empty.2.2 8000 1 16 (by norm_num) (by norm_num) (by norm_num)
     (by norm_num) (by norm_num)⟩

/-! ### Sample-level lemmas for the gain-1 identity -/

theorem exMap_map_ok {α β γ : Type} {f : β → Except WavErr γ} {h : α → β} {j : α → γ}
    {l : List α} (hall : ∀ x ∈ l, f (h x) = .ok (j x)) :
    exMap f (l.map h) = .ok (l.map j) := by
  induction l with
  | nil => rfl
  | cons a as ih =>
    simp only [List.map_cons]
    unfold exMap
    rw [hall a (by simp), ih (fun x hx => hall x (by simp [hx]))]

theorem ratTrunc_mul_one (s : ℤ) : ratTrunc ((s : ℚ) * 1) = s := by
  rw [mul_one, ratTrunc_intCast]

theorem applyGain_one {s lo hi : ℤ} (h1 : lo ≤ s) (h2 : s ≤ hi) :
    applyGain s 1 lo hi = s := by
  unfold applyGain
  rw [ratTrunc_mul_one]
  omega

theorem decodeStd8_range {b0 : ℕ} (h0 : b0 < 256) :
    0 ≤ decodeStd 8 [b0] ∧ decodeStd 8 [b0] ≤ 255 := by
  simp only [decodeStd]
  omega

theorem decodeStd16_range {b0 b1 : ℕ} (h0 : b0 < 256) (h1 : b1 < 256) :
    -32768 ≤ decodeStd 16 [b0, b1] ∧ decodeStd 16 [b0, b1] ≤ 32767 := by
  simp only [decodeStd]
  split <;> omega

theorem decodeStd32_range {b0 b1 b2 b3 : ℕ} (h0 : b0 < 256) (h1 : b1 < 256)
    (h2 : b2 < 256) (h3 : b3 < 256) :
    -2147483648 ≤ decodeStd 32 [b0, b1, b2, b3] ∧
      decodeStd 32 [b0, b1, b2, b3] ≤ 2147483647 := by
  simp only [decodeStd]
  split <;> omega

theorem encodeStd8_decode {b0 : ℕ} (h0 : b0 < 256) :
    encodeStd 8 (decodeStd 8 [b0]) = .ok [b0] := by
  simp only [decodeStd, encodeStd]
  split_ifs <;>
    first
      | (simp only [Except.ok.injEq, List.cons.injEq, and_true]; omega)
      | (exfalso; omega)

theorem encodeStd16_decode {b0 b1 : ℕ} (h0 : b0 < 256) (h1 : b1 < 256) :
    encodeStd 16 (decodeStd 16 [b0, b1]) = .ok [b0, b1] := by
  have hemod : ∀ a b : ℤ, Int.emod a b = a % b := fun _ _ => rfl
  simp only [decodeStd, encodeStd, hemod]
  split_ifs <;>
    first
      | (simp only [Except.ok.injEq, List.cons.injEq, and_true]; omega)
      | (exfalso; omega)

theorem encodeStd32_decode {b0 b1 b2 b3 : ℕ} (h0 : b0 < 256) (h1 : b1 < 256)
    (h2 : b2 < 256) (h3 : b3 < 256) :
    encodeStd 32 (decodeStd 32 [b0, b1, b2, b3]) = .ok [b0, b1, b2, b3] := by
  have hemod : ∀ a b : ℤ, Int.emod a b = a % b := fun _ _ => rfl
  simp only [decodeStd, encodeStd, hemod]
  split_ifs <;>
    first
      | (simp only [Except.ok.injEq, List.cons.injEq, and_true]; omega)
      | (exfalso; omega)

theorem decode24_range {b0 b1 b2 : ℕ} (h0 : b0 < 256) (h1 : b1 < 256) (h2 : b2 < 256) :
    -8388608 ≤ decode24 b0 b1 b2 ∧ decode24 b0 b1 b2 ≤ 8388607 := by
  simp only [decode24]
  split <;> omega

theorem gain24_one {s : ℤ} (h1 : -8388607 ≤ s) (h2 : s ≤ 8388607) : gain24 s 1 = s := by
  unfold gain24
  rw [ratTrunc_mul_one]
  omega

theorem encode24_decode24 {b0 b1 b2 : ℕ} (h0 : b0 < 256) (h1 : b1 < 256)
    (h2 : b2 < 256) : encode24 (decode24 b0 b1 b2) = [b0, b1, b2] := by
  have hf1 : ∀ m : ℤ, Int.fdiv m 256 = m / 256 := fun m => Int.fdiv_eq_ediv m (by norm_num)
  have hf2 : ∀ m : ℤ, Int.fdiv m 65536 = m / 65536 := fun m => Int.fdiv_eq_ediv m (by norm_num)
  have hemod : ∀ a b : ℤ, Int.emod a b = a % b := fun _ _ => rfl
  simp only [decode24, encode24, hf1, hf2, hemod]
  split_ifs <;> simp only [List.cons.injEq, and_true] <;> omega

/-! ### Pipeline-level gain-1 identity lemmas -/

theorem processStd_gain_one_generic {bits w : ℕ} {ch : Char} {mx zv : ℤ} {buf : List ℕ}
    (hfmt : getSampleFormatInfo bits = .ok (some ch, mx, zv))
    (hw : bits / 8 = w) (hw0 : 0 < w) (hmul : buf.length % w = 0)
    (hT : ∀ g ∈ takeChunks w buf (buf.length / w),
      stdTransform bits (if zv = 0 then -mx - 1 else -zv) mx zv (some 1) none
        (decodeStd bits g) = .ok (decodeStd bits g))
    (hED : ∀ g ∈ takeChunks w buf (buf.length / w),
      encodeStd bits (decodeStd bits g) = .ok g) :
    processStandardSamples buf bits (some 1) none = .ok buf := by
  have h1 : exMap (stdTransform bits (if zv = 0 then -mx - 1 else -zv) mx zv (some 1) none)
      ((takeChunks w buf (buf.length / w)).map (decodeStd bits)) =
      .ok ((takeChunks w buf (buf.length / w)).map (decodeStd bits)) := by
    have h0 := @exMap_congr_ok ℤ ℤ
      (stdTransform bits (if zv = 0 then -mx - 1 else -zv) mx zv (some 1) none)
      ((takeChunks w buf (buf.length / w)).map (decodeStd bits)) id
      (by
        intro a ha
        obtain ⟨g, hg, rfl⟩ := List.mem_map.mp ha
        exact hT g hg)
    simpa using h0
  have h2 : exMap (encodeStd bits)
      ((takeChunks w buf (buf.length / w)).map (decodeStd bits)) =
      .ok (takeChunks w buf (buf.length / w)) := by
    have h0 := @exMap_map_ok (List ℕ) ℤ (List ℕ) (encodeStd bits) (decodeStd bits) id
      (takeChunks w buf (buf.length / w)) (by intro g hg; simpa using hED g hg)
    simpa using h0
  have hdvd : w ∣ buf.length := Nat.dvd_of_mod_eq_zero hmul
  have heq : buf.length / w * w = buf.length := Nat.div_mul_cancel hdvd
  have hne : ¬(buf.length ≠ buf.length / w * w) := by
    rw [heq]
    exact fun hcon => hcon rfl
  unfold processStandardSamples
  rw [hfmt]
  simp only [Option.isNone_some, Option.isSome_some, Option.isNone_none, Option.isSome_none,
    Bool.false_and, Bool.and_false, Bool.true_and, Bool.and_true, Bool.false_or,
    Bool.or_false, Bool.or_self, Bool.false_eq_true, if_false, hw, hne]
  simp only [h1, h2]
  rw [flatten_takeChunks (by rw [Nat.mul_comm]; exact heq.symm)]

theorem procStdGain_one_generic {bits w : ℕ} {ch : Char} {mx zv : ℤ} {buf : List ℕ}
    (hfmt : getSampleFormatInfo bits = .ok (some ch, mx, zv))
    (hw : bits / 8 = w) (hw0 : 0 < w) (hmul : buf.length % w = 0)
    (hT : ∀ g ∈ takeChunks w buf (buf.length / w),
      procStdTransform bits (if zv = 0 then -mx else -zv) mx zv 1
        (decodeStd bits g) = .ok (decodeStd bits g))
    (hED : ∀ g ∈ takeChunks w buf (buf.length / w),
      encodeStd bits (decodeStd bits g) = .ok g) :
    procStdGain buf bits 1 = .ok buf := by
  have h1 : exMap (procStdTransform bits (if zv = 0 then -mx else -zv) mx zv 1)
      ((takeChunks w buf (buf.length / w)).map (decodeStd bits)) =
      .ok ((takeChunks w buf (buf.length / w)).map (decodeStd bits)) := by
    have h0 := @exMap_congr_ok ℤ ℤ
      (procStdTransform bits (if zv = 0 then -mx else -zv) mx zv 1)
      ((takeChunks w buf (buf.length / w)).map (decodeStd bits)) id
      (by
        intro a ha
        obtain ⟨g, hg, rfl⟩ := List.mem_map.mp ha
        exact hT g hg)
    simpa using h0
  have h2 : exMap (encodeStd bits)
      ((takeChunks w buf (buf.length / w)).map (decodeStd bits)) =
      .ok (takeChunks w buf (buf.length / w)) := by
    have h0 := @exMap_map_ok (List ℕ) ℤ (List ℕ) (encodeStd bits) (decodeStd bits) id
      (takeChunks w buf (buf.length / w)) (by intro g hg; simpa using hED g hg)
    simpa using h0
  have hdvd : w ∣ buf.length := Nat.dvd_of_mod_eq_zero hmul
  have heq : buf.length / w * w = buf.length := Nat.div_mul_cancel hdvd
  have hne : ¬(buf.length ≠ buf.length / w * w) := by
    rw [heq]
    exact fun hcon => hcon rfl
  unfold procStdGain
  rw [hfmt]
  simp only [hw, hne, if_false]
  simp only [h1, h2]
  rw [flatten_takeChunks (by rw [Nat.mul_comm]; exact heq.symm)]

theorem process24_gain_one_generic {buf : List ℕ}
    (hwf : ∀ x ∈ buf, x < 256) (hmul : buf.length % 3 = 0)
    (hex : ∀ b0 b1 b2 : ℕ, [b0, b1, b2] ∈ takeChunks 3 buf (buf.length / 3) →
      decode24 b0 b1 b2 ≠ -8388608) :
    process24bitSamples buf (some 1) none = .ok buf ∧ proc24Gain buf 1 = buf := by
  have hchunklen := mem_takeChunks_length
    (show 3 * (buf.length / 3) ≤ buf.length by omega)
  have hid : ∀ g ∈ takeChunks 3 buf (buf.length / 3),
      process24Chunk (some 1) none g = .ok g ∧ proc24GainChunk 1 g = g := by
    intro g hg
    obtain ⟨b0, b1, b2, rfl⟩ := length_eq_three_of_chunk (hchunklen g hg)
    have hb0 : b0 < 256 := hwf b0 (mem_takeChunks_subset _ hg b0 (by simp))
    have hb1 : b1 < 256 := hwf b1 (mem_takeChunks_subset _ hg b1 (by simp))
    have hb2 : b2 < 256 := hwf b2 (mem_takeChunks_subset _ hg b2 (by simp))
    have hrange := decode24_range hb0 hb1 hb2
    have hne := hex b0 b1 b2 hg
    have hgain : gain24 (decode24 b0 b1 b2) 1 = decode24 b0 b1 b2 :=
      gain24_one (by omega) hrange.2
    constructor
    · simp [process24Chunk, process24Sample, hgain, encode24_decode24 hb0 hb1 hb2]
    · simp [proc24GainChunk, hgain, encode24_decode24 hb0 hb1 hb2]
  have hrep : buf.length - 3 * (buf.length / 3) = 0 := by omega
  have hfl : (takeChunks 3 buf (buf.length / 3)).flatten = buf :=
    flatten_takeChunks (by omega)
  constructor
  · have h1 : exMap (process24Chunk (some 1) none) (takeChunks 3 buf (buf.length / 3)) =
        .ok (takeChunks 3 buf (buf.length / 3)) := by
      have h0 := @exMap_congr_ok (List ℕ) (List ℕ) (process24Chunk (some 1) none)
        (takeChunks 3 buf (buf.length / 3)) id (fun a ha => (hid a ha).1)
      simpa using h0
    simp only [process24bitSamples, h1, hrep, List.replicate_zero, List.append_nil, hfl]
  · have h1 : (takeChunks 3 buf (buf.length / 3)).map (proc24GainChunk 1) =
        takeChunks 3 buf (buf.length / 3) := by
      have h0 := List.map_congr_left (fun a ha => (hid a ha).2)
      simpa using h0
    simp only [proc24Gain, h1, hrep, List.replicate_zero, List.append_nil, hfl]

theorem length_eq_four_of_chunk {g : List ℕ} (h : g.length = 4) :
    ∃ b0 b1 b2 b3, g = [b0, b1, b2, b3] := by
  rcases g with _ | ⟨b0, _ | ⟨b1, _ | ⟨b2, _ | ⟨b3, _ | ⟨b4, t⟩⟩⟩⟩⟩ <;> simp_all

/-! ### C5: gain 1 is the identity transform -/

/-- C5: with gain 1 every path returns the input buffer unchanged, except
possibly at samples holding the true extremal value of the format, where
clamping may apply: the functional standard path (8/16/32-bit) is the
identity unconditionally; the class-based standard path and both 24-bit
paths are the identity on every buffer none of whose decoded samples is the
format's most negative value `-(maxMagnitude + 1)` (at that single value they
clamp to `-maxMagnitude`). -/
theorem c5_gain_one_identity :
    (∀ (buf : List ℕ) (bits : ℕ), (∀ x ∈ buf, x < 256) →
      (bits = 8 ∨ bits = 16 ∨ bits = 32) → buf.length % (bits / 8) = 0 →
      processStandardSamples buf bits (some 1) none = .ok buf) ∧
    (∀ (buf : List ℕ) (bits : ℕ), (∀ x ∈ buf, x < 256) →
      (bits = 8 ∨ bits = 16 ∨ bits = 32) → buf.length % (bits / 8) = 0 →
      (∀ g ∈ takeChunks (bits / 8) buf (buf.length / (bits / 8)),
        (if bits = 8 then decodeStd 8 g - 128 else decodeStd bits g) ≠
          -(formatMax bits + 1)) →
      procStdGain buf bits 1 = .ok buf) ∧
    (∀ buf : List ℕ, (∀ x ∈ buf, x < 256) → buf.length % 3 = 0 →
      (∀ b0 b1 b2 : ℕ, [b0, b1, b2] ∈ takeChunks 3 buf (buf.length / 3) →
        decode24 b0 b1 b2 ≠ -8388608) →
      process24bitSamples buf (some 1) none = .ok buf) ∧
    (∀ buf : List ℕ, (∀ x ∈ buf, x < 256) → buf.length % 3 = 0 →
      (∀ b0 b1 b2 : ℕ, [b0, b1, b2] ∈ takeChunks 3 buf (buf.length / 3) →
        decode24 b0 b1 b2 ≠ -8388608) →
      proc24Gain buf 1 = buf) := by
  refine ⟨?_, ?_, ?_, ?_⟩
  · intro buf bits hwf hbits hmul
    rcases hbits with rfl | rfl | rfl
    · refine processStd_gain_one_generic rfl (show (8 : ℕ) / 8 = 1 from rfl)
        (by norm_num) (by simpa using hmul) ?_ ?_
      · intro g hg
        obtain ⟨b0, rfl⟩ := List.length_eq_one.mp
          (mem_takeChunks_length (by omega) g hg)
        have hb0 : b0 < 256 := hwf b0 (mem_takeChunks_subset _ hg b0 (by simp))
        have hr := decodeStd8_range hb0
        have happ : applyGain (decodeStd 8 [b0] - 128) 1 (-128) 255 =
            decodeStd 8 [b0] - 128 := applyGain_one (by omega) (by omega)
        norm_num [stdTransform, happ]
      · intro g hg
        obtain ⟨b0, rfl⟩ := List.length_eq_one.mp
          (mem_takeChunks_length (by omega) g hg)
        exact encodeStd8_decode (hwf b0 (mem_takeChunks_subset _ hg b0 (by simp)))
    · refine processStd_gain_one_generic rfl (show (16 : ℕ) / 8 = 2 from rfl)
        (by norm_num) (by simpa using hmul) ?_ ?_
      · intro g hg
        obtain ⟨b0, b1, rfl⟩ := List.length_eq_two.mp
          (mem_takeChunks_length (by omega) g hg)
        have hb0 : b0 < 256 := hwf b0 (mem_takeChunks_subset _ hg b0 (by simp))
        have hb1 : b1 < 256 := hwf b1 (mem_takeChunks_subset _ hg b1 (by simp))
        have hr := decodeStd16_range hb0 hb1
        have happ : applyGain (decodeStd 16 [b0, b1]) 1 (-32768) 32767 =
            decodeStd 16 [b0, b1] := applyGain_one (by omega) (by omega)
        norm_num [stdTransform, happ]
      · intro g hg
        obtain ⟨b0, b1, rfl⟩ := List.length_eq_two.mp
          (mem_takeChunks_length (by omega) g hg)
        have hb0 : b0 < 256 := hwf b0 (mem_takeChunks_subset _ hg b0 (by simp))
        have hb1 : b1 < 256 := hwf b1 (mem_takeChunks_subset _ hg b1 (by simp))
        exact encodeStd16_decode hb0 hb1
    · refine processStd_gain_one_generic rfl (show (32 : ℕ) / 8 = 4 from rfl)
        (by norm_num) (by simpa using hmul) ?_ ?_
      · intro g hg
        obtain ⟨b0, b1, b2, b3, rfl⟩ := length_eq_four_of_chunk
          (mem_takeChunks_length (by omega) g hg)
        have hb0 : b0 < 256 := hwf b0 (mem_takeChunks_subset _ hg b0 (by simp))
        have hb1 : b1 < 256 := hwf b1 (mem_takeChunks_subset _ hg b1 (by simp))
        have hb2 : b2 < 256 := hwf b2 (mem_takeChunks_subset _ hg b2 (by simp))
        have hb3 : b3 < 256 := hwf b3 (mem_takeChunks_subset _ hg b3 (by simp))
        have hr := decodeStd32_range hb0 hb1 hb2 hb3
        have happ : applyGain (decodeStd 32 [b0, b1, b2, b3]) 1 (-2147483648) 2147483647 =
            decodeStd 32 [b0, b1, b2, b3] := applyGain_one (by omega) (by omega)
        norm_num [stdTransform, happ]
      · intro g hg
        obtain ⟨b0, b1, b2, b3, rfl⟩ := length_eq_four_of_chunk
          (mem_takeChunks_length (by omega) g hg)
        have hb0 : b0 < 256 := hwf b0 (mem_takeChunks_subset _ hg b0 (by simp))
        have hb1 : b1 < 256 := hwf b1 (mem_takeChunks_subset _ hg b1 (by simp))
        have hb2 : b2 < 256 := hwf b2 (mem_takeChunks_subset _ hg b2 (by simp))
        have hb3 : b3 < 256 := hwf b3 (mem_takeChunks_subset _ hg b3 (by simp))
        exact encodeStd32_decode hb0 hb1 hb2 hb3
  · intro buf bits hwf hbits hmul hex
    rcases hbits with rfl | rfl | rfl
    · norm_num [formatMax] at hex
      refine procStdGain_one_generic rfl (show (8 : ℕ) / 8 = 1 from rfl)
        (by norm_num) (by simpa using hmul) ?_ ?_
      · intro g hg
        obtain ⟨b0, rfl⟩ := List.length_eq_one.mp
          (mem_takeChunks_length (by omega) g hg)
        have hb0 : b0 < 256 := hwf b0 (mem_takeChunks_subset _ hg b0 (by simp))
        have hr := decodeStd8_range hb0
        have happ : applyGain (decodeStd 8 [b0] - 128) 1 (-128) 255 =
            decodeStd 8 [b0] - 128 := applyGain_one (by omega) (by omega)
        norm_num [procStdTransform, happ]
      · intro g hg
        obtain ⟨b0, rfl⟩ := List.length_eq_one.mp
          (mem_takeChunks_length (by omega) g hg)
        exact encodeStd8_decode (hwf b0 (mem_takeChunks_subset _ hg b0 (by simp)))
    · norm_num [formatMax] at hex
      refine procStdGain_one_generic rfl (show (16 : ℕ) / 8 = 2 from rfl)
        (by norm_num) (by simpa using hmul) ?_ ?_
      · intro g hg
        obtain ⟨b0, b1, rfl⟩ := List.length_eq_two.mp
          (mem_takeChunks_length (by omega) g hg)
        have hb0 : b0 < 256 := hwf b0 (mem_takeChunks_subset _ hg b0 (by simp))
        have hb1 : b1 < 256 := hwf b1 (mem_takeChunks_subset _ hg b1 (by simp))
        have hr := decodeStd16_range hb0 hb1
        have hne := hex [b0, b1] hg
        have happ : applyGain (decodeStd 16 [b0, b1]) 1 (-32767) 32767 =
            decodeStd 16 [b0, b1] := applyGain_one (by omega) (by omega)
        norm_num [procStdTransform, happ]
      · intro g hg
        obtain ⟨b0, b1, rfl⟩ := List.length_eq_two.mp
          (mem_takeChunks_length (by omega) g hg)
        have hb0 : b0 < 256 := hwf b0 (mem_takeChunks_subset _ hg b0 (by simp))
        have hb1 : b1 < 256 := hwf b1 (mem_takeChunks_subset _ hg b1 (by simp))
        exact encodeStd16_decode hb0 hb1
    · norm_num [formatMax] at hex
      refine procStdGain_one_generic rfl (show (32 : ℕ) / 8 = 4 from rfl)
        (by norm_num) (by simpa using hmul) ?_ ?_
      · intro g hg
        obtain ⟨b0, b1, b2, b3, rfl⟩ := length_eq_four_of_chunk
          (mem_takeChunks_length (by omega) g hg)
        have hb0 : b0 < 256 := hwf b0 (mem_takeChunks_subset _ hg b0 (by simp))
        have hb1 : b1 < 256 := hwf b1 (mem_takeChunks_subset _ hg b1 (by simp))
        have hb2 : b2 < 256 := hwf b2 (mem_takeChunks_subset _ hg b2 (by simp))
        have hb3 : b3 < 256 := hwf b3 (mem_takeChunks_subset _ hg b3 (by simp))
        have hr := decodeStd32_range hb0 hb1 hb2 hb3
        have hne := hex [b0, b1, b2, b3] hg
        have happ : applyGain (decodeStd 32 [b0, b1, b2, b3]) 1 (-2147483647) 2147483647 =
            decodeStd 32 [b0, b1, b2, b3] := applyGain_one (by omega) (by omega)
        norm_num [procStdTransform, happ]
      · intro g hg
        obtain ⟨b0, b1, b2, b3, rfl⟩ := length_eq_four_of_chunk
          (mem_takeChunks_length (by omega) g hg)
        have hb0 : b0 < 256 := hwf b0 (mem_takeChunks_subset _ hg b0 (by simp))
        have hb1 : b1 < 256 := hwf b1 (mem_takeChunks_subset _ hg b1 (by simp))
        have hb2 : b2 < 256 := hwf b2 (mem_takeChunks_subset _ hg b2 (by simp))
        have hb3 : b3 < 256 := hwf b3 (mem_takeChunks_subset _ hg b3 (by simp))
        exact encodeStd32_decode hb0 hb1 hb2 hb3
  · intro buf hwf hmul hex
    exact (process24_gain_one_generic hwf hmul hex).1
  · intro buf hwf hmul hex
    exact (process24_gain_one_generic hwf hmul hex).2

/-- Witness for C5 on the 16-bit buffer `[1, 2]` (both engines) and the
24-bit buffer `[1, 2, 3]` (both engines). -/
theorem c5_gain_one_identity_witness :
    ((∀ x ∈ ([1, 2] : List ℕ), x < 256) ∧ (16 = 8 ∨ 16 = 16 ∨ 16 = 32) ∧
      ([1, 2] : List ℕ).length % (16 / 8) = 0 ∧
      (∀ g ∈ takeChunks (16 / 8) [1, 2] (([1, 2] : List ℕ).length / (16 / 8)),
        (if 16 = 8 then decodeStd 8 g - 128 else decodeStd 16 g) ≠ -(formatMax 16 + 1)) ∧
      (∀ x ∈ ([1, 2, 3] : List ℕ), x < 256) ∧ ([1, 2, 3] : List ℕ).length % 3 = 0 ∧
      (∀ b0 b1 b2 : ℕ, [b0, b1, b2] ∈ takeChunks 3 [1, 2, 3] (([1, 2, 3] : List ℕ).length / 3) →
        decode24 b0 b1 b2 ≠ -8388608)) ∧
    processStandardSamples [1, 2] 16 (some 1) none = .ok [1, 2] ∧
    procStdGain [1, 2] 16 1 = .ok [1, 2] ∧
    process24bitSamples [1, 2, 3] (some 1) none = .ok [1, 2, 3] ∧
    proc24Gain [1, 2, 3] 1 = [1, 2, 3] :=
  ⟨⟨by decide, by norm_num, by norm_num, by decide, by decide, by norm_num,
    by
      intro b0 b1 b2 h
      simp [takeChunks] at h
      obtain ⟨rfl, rfl, rfl⟩ := h
      decide⟩,
   c5_gain_one_identity.1 [1, 2] 16 (by decide) (by norm_num) (by norm_num),
   c5_gain_one_identity.2.1 [1, 2] 16 (by decide) (by norm_num) (by norm_num) (by decide),
   c5_gain_one_identity.2.2.1 [1, 2, 3] (by decide) (by norm_num)
     (by
       intro b0 b1 b2 h
       simp [takeChunks] at h
       obtain ⟨rfl, rfl, rfl⟩ := h
       decide),
   c5_gain_one_identity.2.2.2 [1, 2, 3] (by decide) (by norm_num)
     (by
       intro b0 b1 b2 h
       simp [takeChunks] at h
       obtain ⟨rfl, rfl, rfl⟩ := h
       decide)⟩
